import Mathlib

/-!
Verification of the departure resolution and normalization pipeline of the
py-train-mcp-app repository (a Deutsche Bahn departure-board MCP service).

The Python sources are shallowly embedded as Lean definitions:

* `src/db_mcp/infrastructure/time_utils.py`  — timestamp parsing
  (`parse_bahn_datetime`), with the standard-library `datetime.fromisoformat`
  modelled from the spec and the repository's own docstrings;
* `src/db_mcp/domain/services.py`            — `delay_minutes`,
  `effective_time`, `is_cancelled`;
* `src/db_mcp/infrastructure/cache.py`       — `TTLCache`;
* `src/db_mcp/infrastructure/bahn_client.py` — `_raise_for_status`, `_get`,
  and the departure-board cache key of `get_departures`;
* `src/db_mcp/application/departure_service.py` — `_map_departure`,
  `_map_location`, and the destination-filter / truncation stage of
  `get_departures`;
* `src/db_mcp/mcp/tools.py`                  — `_handle_exception`.

Machine integers are modelled as `Int`/`Nat` (Python integers are unbounded),
instants as integer seconds, and the monotonic float clock as `Rat`.
-/

namespace DbMcp

/-! ### Time model (`time_utils.py`) -/

/-- A wall-clock date-time (year, month, day, hour, minute, second),
mirroring the fields of a Python `datetime` at whole-second resolution —
every timestamp this program parses has whole seconds. -/
structure WallClock where
  year : Nat
  month : Nat
  day : Nat
  hour : Nat
  minute : Nat
  second : Nat
deriving DecidableEq

/-- Result of `datetime.fromisoformat`: a naive datetime (no `tzinfo`) or an
offset-aware one, the UTC offset kept in minutes. -/
inductive PyDT where
  | naive (w : WallClock)
  | aware (w : WallClock) (offsetMinutes : Int)
deriving DecidableEq

/-- Gregorian leap-year rule, as used by Python's `datetime` validation. -/
def isLeapYear (y : Nat) : Bool := (y % 4 == 0 && y % 100 != 0) || y % 400 == 0

/-- Length of a month in the proleptic Gregorian calendar. -/
def daysInMonth (y m : Nat) : Nat :=
  if m = 2 then (if isLeapYear y then 29 else 28)
  else if m = 4 ∨ m = 6 ∨ m = 9 ∨ m = 11 then 30
  else 31

/-- Range validation performed by the `datetime` constructor. -/
def validWall (w : WallClock) : Bool :=
  decide (1 ≤ w.year) && decide (w.year ≤ 9999) &&
  decide (1 ≤ w.month) && decide (w.month ≤ 12) &&
  decide (1 ≤ w.day) && decide (w.day ≤ daysInMonth w.year w.month) &&
  decide (w.hour ≤ 23) && decide (w.minute ≤ 59) && decide (w.second ≤ 59)

/-- Numeric value of an ASCII digit character. -/
def digitVal (c : Char) : Nat := c.toNat - 48

/-- Consume two ASCII digits from the front of a character list. -/
def parse2 : List Char → Option (Nat × List Char)
  | a :: b :: rest =>
      if a.isDigit && b.isDigit then some (digitVal a * 10 + digitVal b, rest)
      else none
  | _ => none

/-- Consume four ASCII digits (two `parse2` steps). -/
def parse4 (cs : List Char) : Option (Nat × List Char) := do
  let (hi, cs) ← parse2 cs
  let (lo, cs) ← parse2 cs
  some (hi * 100 + lo, cs)

/-- Consume one expected literal character. -/
def expectChar (c : Char) : List Char → Option (List Char)
  | a :: rest => if a = c then some rest else none
  | _ => none

/-- Parse the `HH:MM` part of a UTC offset (after its sign), requiring the
end of the string; returns the offset magnitude in minutes. -/
def parseOffset (cs : List Char) : Option Int := do
  let (oh, cs) ← parse2 cs
  let cs ← expectChar ':' cs
  let (om, cs) ← parse2 cs
  if cs.isEmpty && decide (oh ≤ 23) && decide (om ≤ 59) then
    some ((oh : Int) * 60 + om)
  else none

/-- Modelled from the spec: `datetime.fromisoformat` (Python standard
library, not part of this repository), restricted to the timestamp formats
the repository documents for bahn.de responses — `YYYY-MM-DDTHH:MM:SS`,
optionally followed by a UTC offset `+HH:MM` or `-HH:MM`.  `none` models
`ValueError`. -/
def fromisoformat (s : String) : Option PyDT := do
  let cs := s.data
  let (y, cs) ← parse4 cs
  let cs ← expectChar '-' cs
  let (mo, cs) ← parse2 cs
  let cs ← expectChar '-' cs
  let (d, cs) ← parse2 cs
  let cs ← expectChar 'T' cs
  let (hh, cs) ← parse2 cs
  let cs ← expectChar ':' cs
  let (mi, cs) ← parse2 cs
  let cs ← expectChar ':' cs
  let (ss, cs) ← parse2 cs
  let w : WallClock := ⟨y, mo, d, hh, mi, ss⟩
  if !validWall w then none
  else
    match cs with
    | [] => some (.naive w)
    | '+' :: rest => (parseOffset rest).map (fun o => PyDT.aware w o)
    | '-' :: rest => (parseOffset rest).map (fun o => PyDT.aware w (-o))
    | _ => none

/-- A timezone-aware datetime carrying the Europe/Berlin zone, as produced by
`parse_bahn_datetime`: either a wall-clock time re-tagged with the Berlin zone
(`dt.replace(tzinfo=BERLIN_TZ)`) or an absolute instant converted into the
Berlin zone (`dt.astimezone(BERLIN_TZ)`), kept as epoch seconds so that no
zoneinfo table is needed to identify the instant. -/
inductive BerlinDT where
  | ofWall (w : WallClock)
  | ofInstant (epochSeconds : Int)
deriving DecidableEq

/-- Days before January 1 of year `y`, counted from 0001-01-01 (the quantity
behind Python's `date.toordinal`, minus one). -/
def daysBeforeYear (y : Nat) : Nat :=
  365 * (y - 1) + (y - 1) / 4 - (y - 1) / 100 + (y - 1) / 400

/-- Days of year `y` that precede month `m`. -/
def daysBeforeMonth (y m : Nat) : Nat :=
  ((List.range (m - 1)).map (fun i => daysInMonth y (i + 1))).sum

/-- Seconds since 0001-01-01T00:00:00 of a wall-clock value, read as UTC.
Differences of such values are exact durations, which is all the code needs. -/
def wallEpochSeconds (w : WallClock) : Int :=
  ((daysBeforeYear w.year + daysBeforeMonth w.year w.month + (w.day - 1) : Nat) : Int) * 86400
    + ((w.hour * 3600 + w.minute * 60 + w.second : Nat) : Int)

/-- Python `dt.astimezone(BERLIN_TZ)`: an aware datetime denotes the instant
`wall - offset`; a naive datetime would be interpreted in the host system's
timezone, abstracted as the parameter `sysTz` (this branch is proved
unreachable for strings accepted by `fromisoformat`). -/
def astimezone_berlin (sysTz : WallClock → BerlinDT) : PyDT → BerlinDT
  | .naive w => sysTz w
  | .aware w off => .ofInstant (wallEpochSeconds w - 60 * off)

/-- Python `dt.replace(tzinfo=BERLIN_TZ)`: keeps the wall-clock fields and
discards any original offset. -/
def replace_tz_berlin : PyDT → BerlinDT
  | .naive w => .ofWall w
  | .aware w _ => .ofWall w

/-- Test `"+" in s or (s.count("-") > 2)` from `parse_bahn_datetime`. -/
def offsetDetect (s : String) : Bool :=
  decide ('+' ∈ s.data) || decide (2 < s.data.count '-')

/-- Python `s.strip()`: drop whitespace from both ends. -/
def pyStrip (s : String) : String :=
  ⟨((s.data.dropWhile Char.isWhitespace).reverse.dropWhile Char.isWhitespace).reverse⟩

/-- The undetected arm of `parse_bahn_datetime`: try `fromisoformat` and
re-tag the result with the Berlin zone; `ValueError` if unparsable. -/
def naive_branch (t : String) : Except Unit BerlinDT :=
  match fromisoformat t with
  | some dt => .ok (replace_tz_berlin dt)
  | none => .error ()

/-- Embedding of `time_utils.parse_bahn_datetime`.  `.error ()` models the
raised `ValueError`. -/
def parse_bahn_datetime (sysTz : WallClock → BerlinDT) (s : String) :
    Except Unit BerlinDT :=
  if pyStrip s = "" then .error ()
  else if offsetDetect (pyStrip s) then
    match fromisoformat (pyStrip s) with
    | some dt => .ok (astimezone_berlin sysTz dt)
    | none => naive_branch (pyStrip s)
  else naive_branch (pyStrip s)

/-! ### Domain services (`domain/services.py`) -/

/-- Embedding of `services.delay_minutes` on instants in seconds.  Python's
`int((rt - sched).total_seconds() / 60)` truncates the minute quotient toward
zero, which is `Int.tdiv`. -/
def delay_minutes (sched : Int) (rt : Option Int) : Int :=
  match rt with
  | none => 0
  | some r => max 0 ((r - sched).tdiv 60)

/-- The spec's formula for the delay: `max(0, floor((rt - sched) in minutes))`
when real-time data is present, else 0.  Stated with `Int.fdiv` (floor
division); used to compare the code's truncation against the spec's floor. -/
def delay_minutes_floor_clamp (sched : Int) (rt : Option Int) : Int :=
  match rt with
  | none => 0
  | some r => max 0 ((r - sched).fdiv 60)

/-- Embedding of `services.effective_time`: the real-time value if present,
else the scheduled one. -/
def effective_time (sched : BerlinDT) (rt : Option BerlinDT) : BerlinDT :=
  rt.getD sched

/-- A raw `meldungen` entry from the upstream API (both fields optional). -/
structure RawMessage where
  type : Option String
  text : Option String
deriving DecidableEq

/-- Embedding of `services.is_cancelled`: true when any message has type
`"HALT_AUSFALL"`. -/
def is_cancelled (messages : List RawMessage) : Bool :=
  messages.any (fun m => decide (m.type = some "HALT_AUSFALL"))

/-! ### TTL cache (`infrastructure/cache.py`)

The cache's `dict` is a finite partial map modelled as a function
`String → Option (V × Rat)`; the monotonic float clock (`time.monotonic`)
is passed explicitly as a `Rat` argument. -/

/-- Embedding of `cache.TTLCache`: per-key `(data, expires_at_monotonic)`. -/
structure TTLCache (V : Type) where
  default_ttl : Rat
  store : String → Option (V × Rat)

/-- Embedding of `TTLCache.set`: expiry is `now + ttl`, the default TTL
applying when `ttl` is `None`. -/
def TTLCache.set (c : TTLCache V) (key : String) (value : V)
    (ttl : Option Rat) (now : Rat) : TTLCache V :=
  { c with store := fun k =>
      if k = key then some (value, now + ttl.getD c.default_ttl) else c.store k }

/-- Embedding of `TTLCache.get`: returns the stored value unless missing or
expired; an expired entry is deleted.  Returns the read result together with
the possibly-updated cache state. -/
def TTLCache.get (c : TTLCache V) (key : String) (now : Rat) :
    Option V × TTLCache V :=
  match c.store key with
  | none => (none, c)
  | some (data, expires_at) =>
    if expires_at < now then
      (none, { c with store := fun k => if k = key then none else c.store k })
    else (some data, c)

/-- Embedding of `TTLCache.invalidate`. -/
def TTLCache.invalidate (c : TTLCache V) (key : String) : TTLCache V :=
  { c with store := fun k => if k = key then none else c.store k }

/-- Embedding of `TTLCache.clear`. -/
def TTLCache.clear (c : TTLCache V) : TTLCache V :=
  { c with store := fun _ => none }

/-! ### Upstream gateway (`infrastructure/bahn_client.py`) -/

/-- Embedding of `exceptions.ApiError` (status code plus message). -/
structure ApiError where
  status_code : Nat
  message : String
deriving DecidableEq

/-- Python `str(exc)` for an `ApiError`: its `__init__` substitutes
`"Upstream API error (<code>)"` when the message is empty. -/
def ApiError.str (e : ApiError) : String :=
  if e.message = "" then "Upstream API error (" ++ toString e.status_code ++ ")"
  else e.message

/-- Embedding of `BahnClient._raise_for_status`: `some e` models raising
`ApiError e`; `none` models returning normally. -/
def raise_for_status (status : Nat) (url : String) : Option ApiError :=
  if status = 404 then some ⟨404, "Resource not found (404): " ++ url⟩
  else if 400 ≤ status then some ⟨status, ""⟩
  else none

/-- Embedding of `BahnClient._get` for a fixed request: consult the cache
under `cache_key`; on a miss, check the upstream response status
(`_raise_for_status`), then store the parsed JSON body in the cache and
return it.  The HTTP response is abstracted as its status code and
already-parsed JSON body. -/
def client_get {V : Type} (c : TTLCache V) (cache_key : String) (now : Rat)
    (status : Nat) (url : String) (body : V) (ttl : Option Rat) :
    Except ApiError (V × TTLCache V) :=
  match c.get cache_key now with
  | (some v, c2) => .ok (v, c2)
  | (none, c2) =>
    match raise_for_status status url with
    | some e => .error e
    | none => .ok (body, c2.set cache_key body ttl now)

/-- Python `",".join(l)`. -/
def joinComma : List String → String
  | [] => ""
  | [a] => a
  | a :: rest => a ++ "," ++ joinComma rest

/-- Python `sorted(modes)`: stable ascending sort by the lexicographic
string order. -/
def sortedModes (modes : List String) : List String :=
  List.insertionSort (· ≤ ·) modes

/-- The `modes_key` component of `BahnClient.get_departures`'s cache key:
`",".join(sorted(modes)) if modes else ""`. -/
def modes_key (modes : List String) : String :=
  if modes = [] then "" else joinComma (sortedModes modes)

/-- Embedding of the cache-key construction in `BahnClient.get_departures`:
the endpoint URL, `"&"`-joined `key=value` pairs of the base parameters in
sorted key order (`datum`, `maxVias`, `mitVias`, `ortExtId`, `ortId`,
`zeit`), and the sorted-modes component. -/
def departures_cache_key (eva : Int) (hafas_id datum zeit : String)
    (modes : List String) : String :=
  "https://www.bahn.de/web/api/reiseloesung/abfahrten?"
    ++ "datum=" ++ datum ++ "&maxVias=5&mitVias=true&ortExtId=" ++ toString eva
    ++ "&ortId=" ++ hafas_id ++ "&zeit=" ++ zeit
    ++ "&modes=" ++ modes_key modes

/-- The ten valid transport-mode codes of `value_objects.TransportMode`. -/
def validModeCodes : List String :=
  ["ICE", "EC_IC", "IR", "REGIONAL", "SBAHN", "BUS", "SCHIFF", "UBAHN",
   "TRAM", "ANRUFPFLICHTIG"]

/-! ### Resolution and mapping service (`application/departure_service.py`) -/

/-- Domain entity `entities.Message`. -/
structure Message where
  type : String
  text : String
deriving DecidableEq

/-- Domain entity `entities.Departure`; datetimes are `BerlinDT` values. -/
structure Departure where
  journey_id : String
  train_name : String
  train_type : String
  destination : String
  via_stations : List String
  platform : String
  rt_platform : String
  scheduled_departure : BerlinDT
  rt_departure : Option BerlinDT
  effective_departure : BerlinDT
  delay_minutes : Int
  is_cancelled : Bool
  messages : List Message
deriving DecidableEq

/-- Domain entity `entities.Location`; coordinates as rationals. -/
structure Location where
  eva : Int
  hafas_id : String
  name : String
  lat : Rat
  lon : Rat
  location_type : String
  transport_modes : List String
deriving DecidableEq

/-- The nested `verkehrmittel` object of a raw board entry. -/
structure RawVerkehrsmittel where
  langText : Option String
  mittelText : Option String
  kurzText : Option String
deriving DecidableEq

/-- A raw departure-board entry from the upstream API; every field may be
absent, matching the `raw.get(...)` accesses in `_map_departure`. -/
structure RawEntry where
  journeyId : Option String
  verkehrmittel : Option RawVerkehrsmittel
  terminus : Option String
  ueber : Option (List String)
  gleis : Option String
  ezGleis : Option String
  zeit : Option String
  ezZeit : Option String
  meldungen : Option (List RawMessage)
deriving DecidableEq

/-- Python `a or b` for an optional string `a`: `None` and `""` are falsy. -/
def pyStrOr (a : Option String) (b : String) : String :=
  match a with
  | some s => if s = "" then b else s
  | none => b

/-- The instant (epoch seconds) denoted by a Berlin-tagged datetime.  A
re-tagged wall clock needs the zone's UTC offset at that wall time, abstracted
as `berlinOff` (minutes); an `astimezone` result already is an instant.
Differences of these instants are what Python's aware-datetime subtraction
computes. -/
def berlin_instant (berlinOff : WallClock → Int) : BerlinDT → Int
  | .ofWall w => wallEpochSeconds w - 60 * berlinOff w
  | .ofInstant e => e

/-- Embedding of `DepartureService._map_departure`.  `.error ()` models the
`ValueError` escaping when the scheduled `"zeit"` field does not parse; a
parse failure of the real-time `"ezZeit"` field is swallowed (`rt_dt = None`). -/
def map_departure (sysTz : WallClock → BerlinDT) (berlinOff : WallClock → Int)
    (raw : RawEntry) : Except Unit Departure :=
  let v := raw.verkehrmittel.getD ⟨none, none, none⟩
  let train_name := pyStrOr v.langText (pyStrOr v.mittelText (v.kurzText.getD ""))
  let train_type := v.kurzText.getD ""
  let ueber := raw.ueber.getD []
  let via_stations := ueber.drop 1
  match parse_bahn_datetime sysTz (raw.zeit.getD "") with
  | .error _ => .error ()
  | .ok sched_dt =>
    let ez := raw.ezZeit.getD ""
    let rt_dt : Option BerlinDT :=
      if ez = "" then none else (parse_bahn_datetime sysTz ez).toOption
    let eff_dt := effective_time sched_dt rt_dt
    let delay := delay_minutes (berlin_instant berlinOff sched_dt)
        (rt_dt.map (berlin_instant berlinOff))
    let meldungen := raw.meldungen.getD []
    .ok
      { journey_id := raw.journeyId.getD ""
        train_name := train_name
        train_type := train_type
        destination := raw.terminus.getD ""
        via_stations := via_stations
        platform := raw.gleis.getD ""
        rt_platform := raw.ezGleis.getD ""
        scheduled_departure := sched_dt
        rt_departure := rt_dt
        effective_departure := eff_dt
        delay_minutes := delay
        is_cancelled := is_cancelled meldungen
        messages := meldungen.map (fun m => Message.mk (m.type.getD "") (m.text.getD "")) }

/-- The list comprehension `[self._map_departure(entry) for entry in entries]`:
entries are mapped in order and the first `ValueError` aborts the whole board
fetch. -/
def map_board (sysTz : WallClock → BerlinDT) (berlinOff : WallClock → Int) :
    List RawEntry → Except Unit (List Departure)
  | [] => .ok []
  | e :: rest => do
    let d ← map_departure sysTz berlinOff e
    let ds ← map_board sysTz berlinOff rest
    .ok (d :: ds)

/-- Python slice `xs[:k]` for an arbitrary integer bound `k`: a non-negative
`k` takes the first `k` elements; a negative `k` stops `|k|` elements before
the end (clamped at zero). -/
def pySliceTo {α : Type} (xs : List α) (k : Int) : List α :=
  if 0 ≤ k then xs.take k.toNat
  else xs.take ((xs.length : Int) + k).toNat

/-- Python `s.lower()`: lower-case every character. -/
def strLower (s : String) : String :=
  ⟨s.data.map Char.toLower⟩

/-- Python `needle.lower() in hay.lower()`: case-insensitive substring test. -/
def lowerContains (hay needle : String) : Bool :=
  decide ((strLower needle).data <:+: (strLower hay).data)

/-- The per-departure predicate of the destination filter in
`DepartureService.get_departures`: the lowered filter occurs in the lowered
destination name or in some lowered via-station name. -/
def matches_filter (f : String) (d : Departure) : Bool :=
  lowerContains d.destination f || d.via_stations.any (fun via => lowerContains via f)

/-- The `if destination_filter:` guard and filter comprehension of
`DepartureService.get_departures`: `None` and `""` are falsy, so no filtering
happens for them. -/
def apply_destination_filter (destination_filter : Option String)
    (ds : List Departure) : List Departure :=
  match destination_filter with
  | none => ds
  | some f => if f = "" then ds else ds.filter (matches_filter f)

/-- The final filtering/truncation stage of `DepartureService.get_departures`
(its steps 4-5): apply the destination filter to the mapped departures, then
return `departures[:max_results]`. -/
def filter_and_truncate (ds : List Departure) (destination_filter : Option String)
    (max_results : Int) : List Departure :=
  pySliceTo (apply_destination_filter destination_filter ds) max_results

/-- A raw station-search result from the upstream API, with the fields read
by `_map_location`; numeric JSON values are modelled as already-coerced
numbers (`int(...)` / `float(...)` in the source). -/
structure RawLocation where
  evaNumber : Option Int
  extId : Option Int
  id : Option String
  name : Option String
  lat : Option Rat
  lon : Option Rat
  type : Option String
  products : Option (List String)
deriving DecidableEq

/-- Embedding of `DepartureService._map_location`: `eva` from `"evaNumber"`,
falling back to `"extId"`, defaulting to 0; the remaining fields default as
in the source. -/
def map_location (raw : RawLocation) : Location :=
  { eva := raw.evaNumber.getD (raw.extId.getD 0)
    hafas_id := raw.id.getD ""
    name := raw.name.getD ""
    lat := raw.lat.getD 0
    lon := raw.lon.getD 0
    location_type := raw.type.getD "ST"
    transport_modes := raw.products.getD [] }

/-! ### Tool-facing error boundary (`mcp/tools.py`) -/

/-- The failure kinds reaching `_handle_exception`: the typed domain
failures, `httpx.TimeoutException`, `ValueError`, and anything else. -/
inductive Exc where
  | stationNotFound (message : String)
  | apiError (e : ApiError)
  | timeout
  | valueError (message : String)
  | other (message : String)
deriving DecidableEq

/-- Embedding of `tools._handle_exception`: the message placed in the
structured `{error: ...}` payload for each failure kind.  Every failure is
mapped; nothing re-raises. -/
def handle_exception : Exc → String
  | .stationNotFound msg => msg
  | .apiError e =>
      if e.status_code = 400 then "Invalid request. Please check your inputs."
      else if e.status_code = 404 then "Resource not found."
      else if 500 ≤ e.status_code then
        "Upstream API error (" ++ toString e.status_code ++ "). Please try again later."
      else e.str
  | .timeout => "Request timed out. Please try again."
  | .valueError msg => msg
  | .other _ => "An unexpected error occurred."

/-! ### Claim C1: delay computation -/

/-- Helper: a nonpositive integer divided (truncating) by 60 is nonpositive. -/
lemma tdiv_sixty_nonpos {a : Int} (h : a ≤ 0) : a.tdiv 60 ≤ 0 := by
  have h1 : a.tdiv 60 = -((-a).tdiv 60) := by
    rw [← Int.neg_tdiv, Int.neg_neg]
  rw [h1]
  have h2 : 0 ≤ (-a).tdiv 60 :=
    Int.tdiv_nonneg (by omega) (by norm_num)
  omega

/-- C1: the delay is 0 when no real-time instant is given or when it is not
after the scheduled one; when it is strictly later the delay equals the floor
of the difference in minutes; the result is never negative; and the code's
truncate-then-clamp always agrees with the spec's floor-then-clamp. -/
theorem delay_minutes_floor_clamp_agreement :
    ∀ (sched : Int) (rt : Option Int),
      delay_minutes sched rt = delay_minutes_floor_clamp sched rt ∧
      delay_minutes sched none = 0 ∧
      (∀ r : Int, r ≤ sched → delay_minutes sched (some r) = 0) ∧
      (∀ r : Int, sched < r → delay_minutes sched (some r) = (r - sched).fdiv 60) ∧
      0 ≤ delay_minutes sched rt := by
  intro sched rt
  have key : ∀ r : Int, max 0 ((r - sched).tdiv 60) = max 0 ((r - sched).fdiv 60) := by
    intro r
    rcases le_or_lt 0 (r - sched) with hge | hlt
    · rw [Int.fdiv_eq_tdiv hge (by norm_num)]
    · have h1 : (r - sched).tdiv 60 ≤ 0 := tdiv_sixty_nonpos (by omega)
      have h2 : (r - sched).fdiv 60 ≤ 0 :=
        le_of_lt (Int.fdiv_neg' hlt (by norm_num))
      omega
  refine ⟨?_, rfl, ?_, ?_, ?_⟩
  · cases rt with
    | none => rfl
    | some r => simpa [delay_minutes, delay_minutes_floor_clamp] using key r
  · intro r hr
    have h1 : (r - sched).tdiv 60 ≤ 0 := tdiv_sixty_nonpos (by omega)
    simp only [delay_minutes]
    omega
  · intro r hr
    have h0 : (0 : Int) ≤ r - sched := by omega
    have h1 : 0 ≤ (r - sched).fdiv 60 := Int.fdiv_nonneg h0 (by norm_num)
    have h2 := key r
    simp only [delay_minutes]
    omega
  · cases rt with
    | none => simp [delay_minutes]
    | some r => simp only [delay_minutes]; omega

/-- Witness for C1 at concrete instants: an early arrival (90 seconds before
schedule) yields delay 0, and a real-time instant 480 seconds late yields
delay 8 minutes. -/
theorem delay_minutes_floor_clamp_agreement_witness :
    delay_minutes 0 (some (-90)) = 0 ∧ delay_minutes 0 (some 480) = 8 := by
  constructor
  · exact (delay_minutes_floor_clamp_agreement 0 (some (-90))).2.2.1 (-90) (by decide)
  · have h := (delay_minutes_floor_clamp_agreement 0 (some 480)).2.2.2.1 480 (by decide)
    rw [h]
    decide

/-! ### Claim C5: TTL cache semantics -/

/-- C5: after `set key value T` at monotonic time `t0`, a `get` strictly
before `t0 + T` returns the value and a `get` strictly after `t0 + T` returns
`None` and evicts the entry; re-`set` replaces both value and expiry;
`invalidate` and `clear` make subsequent `get`s return `None` immediately. -/
theorem ttl_cache_spec {V : Type} :
    ∀ (c : TTLCache V) (key : String) (v : V) (T t0 : Rat),
      (∀ t : Rat, t < t0 + T → ((c.set key v (some T) t0).get key t).1 = some v) ∧
      (∀ t : Rat, t0 + T < t →
        ((c.set key v (some T) t0).get key t).1 = none ∧
        ((c.set key v (some T) t0).get key t).2.store key = none) ∧
      (∀ (v2 : V) (T2 t2 : Rat),
        ((c.set key v (some T) t0).set key v2 (some T2) t2).store key = some (v2, t2 + T2)) ∧
      (∀ t : Rat, ((c.invalidate key).get key t).1 = none) ∧
      (∀ t : Rat, (c.clear.get key t).1 = none) := by
  intro c key v T t0
  have hs : (c.set key v (some T) t0).store key = some (v, t0 + T) := by
    simp [TTLCache.set]
  refine ⟨?_, ?_, ?_, ?_, ?_⟩
  · intro t ht
    simp only [TTLCache.get, hs]
    rw [if_neg (not_lt.mpr (le_of_lt ht))]
  · intro t ht
    simp only [TTLCache.get, hs]
    rw [if_pos ht]
    exact ⟨rfl, by simp⟩
  · intro v2 T2 t2
    simp [TTLCache.set]
  · intro t
    simp [TTLCache.get, TTLCache.invalidate]
  · intro t
    simp [TTLCache.get, TTLCache.clear]

/-- Witness for C5 on a concrete cache: an entry set at time 0 with TTL 5 is
visible at time 3, gone (and evicted) at time 6; re-setting replaces the
expiry; invalidate and clear hide the key. -/
theorem ttl_cache_spec_witness :
    (((TTLCache.mk 90 fun _ => none : TTLCache Nat).set "k" 7 (some 5) 0).get "k" 3).1 = some 7 ∧
    (((TTLCache.mk 90 fun _ => none : TTLCache Nat).set "k" 7 (some 5) 0).get "k" 6).1 = none ∧
    ((((TTLCache.mk 90 fun _ => none : TTLCache Nat).set "k" 7 (some 5) 0).set "k" 8 (some 2) 10).store "k")
      = some (8, 12) ∧
    (((TTLCache.mk 90 fun _ => none : TTLCache Nat).invalidate "k").get "k" 0).1 = none := by
  have h := ttl_cache_spec (TTLCache.mk 90 fun _ => none : TTLCache Nat) "k" 7 5 0
  refine ⟨h.1 3 (by norm_num), (h.2.1 6 (by norm_num)).1, ?_, h.2.2.2.1 0⟩
  have h2 := h.2.2.1 8 2 10
  rw [h2]
  norm_num

/-! ### Claim C6: tool-facing failure mapping -/

/-- Counterexample to C6 as stated: an upstream failure with status 400 is
neither 404 nor ≥ 500, so the claim requires its message to be passed
through, but the code returns the generic invalid-request message instead. -/
theorem handle_exception_400_counterexample :
    handle_exception (.apiError ⟨400, ""⟩) = "Invalid request. Please check your inputs." ∧
    (ApiError.mk 400 "").str = "Upstream API error (400)" ∧
    handle_exception (.apiError ⟨400, ""⟩) ≠ (ApiError.mk 400 "").str := by
  exact ⟨rfl, rfl, by decide⟩

/-- C6 amended: as the claim states it, except that an upstream failure with
status 400 maps to the generic "Invalid request. Please check your inputs."
message rather than passing the underlying message through. -/
theorem handle_exception_amended :
    (∀ msg, handle_exception (.stationNotFound msg) = msg) ∧
    (∀ e : ApiError, e.status_code = 400 →
      handle_exception (.apiError e) = "Invalid request. Please check your inputs.") ∧
    (∀ e : ApiError, e.status_code = 404 →
      handle_exception (.apiError e) = "Resource not found.") ∧
    (∀ e : ApiError, 500 ≤ e.status_code →
      handle_exception (.apiError e) =
        "Upstream API error (" ++ toString e.status_code ++ "). Please try again later.") ∧
    (∀ e : ApiError, e.status_code ≠ 400 → e.status_code ≠ 404 → e.status_code < 500 →
      handle_exception (.apiError e) = e.str) ∧
    (handle_exception .timeout = "Request timed out. Please try again.") ∧
    (∀ msg, handle_exception (.valueError msg) = msg) ∧
    (∀ msg, handle_exception (.other msg) = "An unexpected error occurred.") := by
  refine ⟨fun msg => rfl, ?_, ?_, ?_, ?_, rfl, fun msg => rfl, fun msg => rfl⟩
  · intro e he
    simp [handle_exception, he]
  · intro e he
    simp [handle_exception, he]
  · intro e he
    have h400 : e.status_code ≠ 400 := by omega
    have h404 : e.status_code ≠ 404 := by omega
    simp [handle_exception, h400, h404, he]
  · intro e h400 h404 h500
    have h : ¬ 500 ≤ e.status_code := by omega
    simp [handle_exception, h400, h404, h]

/-- Witness for C6 amended, at one concrete failure of each mapped kind. -/
theorem handle_exception_amended_witness :
    handle_exception (.stationNotFound "Station not found: X") = "Station not found: X" ∧
    handle_exception (.apiError ⟨400, ""⟩) = "Invalid request. Please check your inputs." ∧
    handle_exception (.apiError ⟨404, "m"⟩) = "Resource not found." ∧
    handle_exception (.apiError ⟨503, ""⟩) = "Upstream API error (503). Please try again later." ∧
    handle_exception (.apiError ⟨418, "teapot"⟩) = "teapot" ∧
    handle_exception (.valueError "Unknown transport mode: XYZ") = "Unknown transport mode: XYZ" ∧
    handle_exception (.other "detail") = "An unexpected error occurred." := by
  refine ⟨handle_exception_amended.1 _, handle_exception_amended.2.1 _ rfl,
    handle_exception_amended.2.2.1 _ rfl, ?_, ?_,
    handle_exception_amended.2.2.2.2.2.2.1 _, handle_exception_amended.2.2.2.2.2.2.2 _⟩
  · have h := handle_exception_amended.2.2.2.1 ⟨503, ""⟩ (by decide)
    rw [h]
    rfl
  · have h := handle_exception_amended.2.2.2.2.1 ⟨418, "teapot"⟩
      (by decide) (by decide) (by decide)
    rw [h]
    rfl

/-! ### Claim C7: Location eva invariant -/

/-- Counterexample to C7 as stated: a raw search result whose `"evaNumber"`
field carries a negative value is mapped to a `Location` with a negative
`eva` — the code performs no sign check, so the invariant does not hold for
every raw upstream search result. -/
theorem location_eva_counterexample :
    (map_location ⟨some (-1), none, none, none, none, none, none, none⟩).eva = -1 ∧
    ¬ 0 ≤ (map_location ⟨some (-1), none, none, none, none, none, none, none⟩).eva := by
  exact ⟨rfl, by decide⟩

/-- C7 amended: `eva` copies the `"evaNumber"` field when present, else the
`"extId"` field, else defaults to 0; it is therefore non-negative whenever
the field values supplied by the upstream are non-negative — in particular
whenever both fields are absent. -/
theorem location_eva_amended :
    ∀ raw : RawLocation,
      ((∀ v, raw.evaNumber = some v → 0 ≤ v) → (∀ v, raw.extId = some v → 0 ≤ v) →
        0 ≤ (map_location raw).eva) ∧
      (∀ v, raw.evaNumber = some v → (map_location raw).eva = v) ∧
      (raw.evaNumber = none → ∀ v, raw.extId = some v → (map_location raw).eva = v) ∧
      (raw.evaNumber = none → raw.extId = none → (map_location raw).eva = 0) := by
  intro raw
  refine ⟨?_, ?_, ?_, ?_⟩
  · intro heva hext
    cases he : raw.evaNumber with
    | some v => simp only [map_location, he, Option.getD_some]; exact heva v he
    | none =>
      cases hx : raw.extId with
      | some v => simp only [map_location, he, hx, Option.getD_none, Option.getD_some]
                  exact hext v hx
      | none => simp [map_location, he, hx]
  · intro v he
    simp [map_location, he]
  · intro he v hx
    simp [map_location, he, hx]
  · intro he hx
    simp [map_location, he, hx]

/-- Witness for C7 amended: a result carrying only the alternate external id
maps to that id, which is non-negative. -/
theorem location_eva_amended_witness :
    (map_location ⟨none, some 8000105, none, none, none, none, none, none⟩).eva = 8000105 ∧
    0 ≤ (map_location ⟨none, some 8000105, none, none, none, none, none, none⟩).eva := by
  constructor
  · exact (location_eva_amended _).2.2.1 rfl 8000105 rfl
  · exact (location_eva_amended _).1
      (by intro v h; cases h) (by intro v h; injection h with h2; omega)

/-! ### Claim C2: gateway status handling -/

/-- Counterexample to C2 as stated: a 301 upstream response is not a 2xx
status, yet `_raise_for_status` raises nothing and `_get` succeeds, parsing
and returning the body. -/
theorem gateway_non2xx_counterexample :
    raise_for_status 301 "u" = none ∧
    ¬ (200 ≤ 301 ∧ 301 ≤ 299) ∧
    (client_get (TTLCache.mk 90 fun _ => none : TTLCache Nat) "k" 0 301 "u" 7 none).isOk
      = true := by
  exact ⟨rfl, by decide, rfl⟩

/-- C2 amended: on a cache miss, a gateway call fails exactly when the status
is ≥ 400 (statuses below 400, including 3xx, are treated as success): 404
raises the typed not-found failure, any other status ≥ 400 raises the typed
upstream failure carrying that status, and a status < 400 has its parsed JSON
body written into the cache before being returned. -/
theorem gateway_status_amended {V : Type} :
    ∀ (c : TTLCache V) (key : String) (now : Rat) (status : Nat) (url : String)
      (body : V) (ttl : Option Rat),
      (c.get key now).1 = none →
      ((raise_for_status status url = none ↔ status < 400) ∧
       (status = 404 → client_get c key now status url body ttl =
          .error ⟨404, "Resource not found (404): " ++ url⟩) ∧
       (400 ≤ status → status ≠ 404 →
          client_get c key now status url body ttl = .error ⟨status, ""⟩) ∧
       (status < 400 → client_get c key now status url body ttl =
          .ok (body, ((c.get key now).2).set key body ttl now))) := by
  intro c key now status url body ttl hmiss
  rcases hc : c.get key now with ⟨o, c2⟩
  rw [hc] at hmiss
  simp only at hmiss
  subst hmiss
  refine ⟨?_, ?_, ?_, ?_⟩
  · constructor
    · intro h
      by_contra hge
      simp only [raise_for_status] at h
      split at h
      · exact absurd h (by simp)
      · split at h
        · exact absurd h (by simp)
        · omega
    · intro h
      have h404 : status ≠ 404 := by omega
      have h400 : ¬ 400 ≤ status := by omega
      simp [raise_for_status, h404, h400]
  · intro h
    subst h
    simp [client_get, hc, raise_for_status]
  · intro h400 h404
    simp [client_get, hc, raise_for_status, h404, h400]
  · intro h
    have h404 : status ≠ 404 := by omega
    have h400 : ¬ 400 ≤ status := by omega
    simp [client_get, hc, raise_for_status, h404, h400]

/-- Witness for C2 amended on a concrete empty cache: 404 and 500 raise the
corresponding typed failures, while a 200 response is returned and cached. -/
theorem gateway_status_amended_witness :
    client_get (TTLCache.mk 90 fun _ => none : TTLCache Nat) "k" 0 404 "u" 7 none
      = .error ⟨404, "Resource not found (404): u"⟩ ∧
    client_get (TTLCache.mk 90 fun _ => none : TTLCache Nat) "k" 0 500 "u" 7 none
      = .error ⟨500, ""⟩ ∧
    client_get (TTLCache.mk 90 fun _ => none : TTLCache Nat) "k" 0 200 "u" 7 none
      = .ok (7, (((TTLCache.mk 90 fun _ => none : TTLCache Nat).get "k" 0).2).set "k" 7 none 0) := by
  refine ⟨?_, ?_, ?_⟩
  · have h := (gateway_status_amended (TTLCache.mk 90 fun _ => none : TTLCache Nat)
      "k" 0 404 "u" 7 none rfl).2.1 rfl
    rw [h]
    rfl
  · exact (gateway_status_amended (TTLCache.mk 90 fun _ => none : TTLCache Nat)
      "k" 0 500 "u" 7 none rfl).2.2.1 (by decide) (by decide)
  · exact (gateway_status_amended (TTLCache.mk 90 fun _ => none : TTLCache Nat)
      "k" 0 200 "u" 7 none rfl).2.2.2 (by decide)

/-! ### Claim C10: negative max_results slicing -/

/-- C10: for a negative `max_results`, the Python slice `departures[:m]`
returns the filtered list with its last `|m|` elements removed (clamped at
zero) — not an at-most-`|m|`-element prefix. -/
theorem slice_negative_max_results :
    ∀ (ds : List Departure) (f : Option String) (m : Int), m < 0 →
      filter_and_truncate ds f m =
        (apply_destination_filter f ds).take
          ((apply_destination_filter f ds).length - (-m).toNat) ∧
      (filter_and_truncate ds f m).length =
        (apply_destination_filter f ds).length - (-m).toNat := by
  intro ds f m hm
  have hneg : ¬ 0 ≤ m := by omega
  have hlen : (((apply_destination_filter f ds).length : Int) + m).toNat
      = (apply_destination_filter f ds).length - (-m).toNat := by omega
  constructor
  · simp only [filter_and_truncate, pySliceTo, if_neg hneg, hlen]
  · simp only [filter_and_truncate, pySliceTo, if_neg hneg, hlen, List.length_take]
    omega

/-- A fixed concrete departure used by witnesses. -/
def sampleDeparture (dest : String) (vias : List String) : Departure :=
  { journey_id := ""
    train_name := "ICE 619"
    train_type := "ICE"
    destination := dest
    via_stations := vias
    platform := ""
    rt_platform := ""
    scheduled_departure := .ofWall ⟨2026, 2, 24, 14, 30, 0⟩
    rt_departure := none
    effective_departure := .ofWall ⟨2026, 2, 24, 14, 30, 0⟩
    delay_minutes := 0
    is_cancelled := false
    messages := [] }

/-- Witness for C10: with three departures and `max_results = -1`, the result
keeps the first two departures — two elements, strictly more than `|-1| = 1`,
so the at-most-`max_results` truncation guarantee fails for negatives. -/
theorem slice_negative_max_results_witness :
    filter_and_truncate
        [sampleDeparture "A" [], sampleDeparture "B" [], sampleDeparture "C" []] none (-1)
      = [sampleDeparture "A" [], sampleDeparture "B" []] ∧
    1 < (filter_and_truncate
        [sampleDeparture "A" [], sampleDeparture "B" [], sampleDeparture "C" []] none (-1)).length := by
  have h := slice_negative_max_results
    [sampleDeparture "A" [], sampleDeparture "B" [], sampleDeparture "C" []] none (-1)
    (by decide)
  constructor
  · rw [h.1]
    rfl
  · rw [h.2]
    decide

/-! ### Claim C3: destination filtering before truncation -/

/-- Helper: every departure matches the empty filter (the empty string is a
substring of everything), so skipping the filter for a falsy `""` coincides
with filtering by it. -/
lemma matches_filter_empty (d : Departure) : matches_filter "" d = true := by
  simp [matches_filter, lowerContains, strLower]

/-- C3: for every mapped departure list, filter string and (natural)
`max_results`, the result is the filtered list truncated afterwards — it
keeps exactly the departures whose destination or some via-station contains
the filter case-insensitively, in their original relative order, cut to the
first `max_results` elements. -/
theorem filter_then_truncate_spec :
    ∀ (ds : List Departure) (f : String) (n : Nat),
      filter_and_truncate ds (some f) (n : Int)
        = (ds.filter (matches_filter f)).take n ∧
      (∀ d ∈ filter_and_truncate ds (some f) (n : Int), matches_filter f d = true) ∧
      (filter_and_truncate ds (some f) (n : Int)).Sublist ds ∧
      (filter_and_truncate ds (some f) (n : Int)).length ≤ n := by
  intro ds f n
  have hmain : filter_and_truncate ds (some f) (n : Int)
      = (ds.filter (matches_filter f)).take n := by
    simp only [filter_and_truncate, pySliceTo, if_pos (Int.natCast_nonneg n),
      Int.toNat_natCast, apply_destination_filter]
    by_cases hf : f = ""
    · rw [if_pos hf, hf]
      rw [List.filter_eq_self.mpr (fun d _ => matches_filter_empty d)]
    · rw [if_neg hf]
  refine ⟨hmain, ?_, ?_, ?_⟩
  · intro d hd
    rw [hmain] at hd
    exact List.of_mem_filter (List.mem_of_mem_take hd)
  · rw [hmain]
    exact (List.take_sublist _ _).trans (List.filter_sublist ds)
  · rw [hmain]
    simp only [List.length_take]
    omega

/-- Witness for C3 at a concrete board: the upper-case filter "HBF" keeps the
departure towards "München Hbf" and the one passing via "Hamburg Hbf", in
order, and drops the rest; the result respects `max_results = 5`. -/
theorem filter_then_truncate_spec_witness :
    filter_and_truncate
        [sampleDeparture "München Hbf" [], sampleDeparture "Berlin Ost" [],
         sampleDeparture "Kiel" ["Hamburg Hbf", "Neumünster"]] (some "HBF") (5 : Nat)
      = [sampleDeparture "München Hbf" [], sampleDeparture "Kiel" ["Hamburg Hbf", "Neumünster"]] ∧
    (filter_and_truncate
        [sampleDeparture "München Hbf" [], sampleDeparture "Berlin Ost" [],
         sampleDeparture "Kiel" ["Hamburg Hbf", "Neumünster"]] (some "HBF") (5 : Nat)).length
      ≤ 5 := by
  have h := filter_then_truncate_spec
    [sampleDeparture "München Hbf" [], sampleDeparture "Berlin Ost" [],
     sampleDeparture "Kiel" ["Hamburg Hbf", "Neumünster"]] "HBF" 5
  constructor
  · rw [h.1]
    rfl
  · exact h.2.2.2

/-! ### Claim C8: departure-board cache key and transport modes -/

/-- Helper: `String.data` is injective (a string is its character list). -/
lemma string_data_injective : Function.Injective String.data := by
  intro a b h
  cases a
  cases b
  exact congrArg String.mk h

/-- Helper: `joinComma` is `List.intercalate [',']` at the character level. -/
lemma joinComma_data :
    ∀ l : List String, (joinComma l).data = List.intercalate [','] (l.map String.data)
  | [] => by simp [joinComma, List.intercalate]
  | [a] => by simp [joinComma, List.intercalate]
  | a :: b :: rest => by
    have ih := joinComma_data (b :: rest)
    simp only [joinComma, String.data_append, ih]
    simp [List.intercalate]

/-- Helper: joining nonempty comma-free words with commas is injective. -/
lemma joinComma_inj {l1 l2 : List String}
    (h1 : ∀ w ∈ l1, ',' ∉ w.data) (h2 : ∀ w ∈ l2, ',' ∉ w.data)
    (hn1 : l1 ≠ []) (hn2 : l2 ≠ [])
    (h : joinComma l1 = joinComma l2) : l1 = l2 := by
  have hd := congrArg String.data h
  rw [joinComma_data, joinComma_data] at hd
  have hsplit := congrArg (List.splitOn ',') hd
  rw [List.splitOn_intercalate _ ',' (by simpa using h1) (by simpa using hn1),
    List.splitOn_intercalate _ ',' (by simpa using h2) (by simpa using hn2)] at hsplit
  exact List.map_injective_iff.mpr string_data_injective hsplit

/-- Helper: joining a nonempty list of nonempty words is a nonempty string. -/
lemma joinComma_ne_empty :
    ∀ (a : String) (rest : List String), a.data ≠ [] → joinComma (a :: rest) ≠ "" := by
  intro a rest ha h
  have hd := congrArg String.data h
  cases rest with
  | nil => exact ha (by simpa [joinComma] using hd)
  | cons b t =>
    simp [joinComma, String.data_append] at hd

/-- Helper: the ten valid transport-mode codes are nonempty and comma-free. -/
lemma validModeCodes_words :
    ∀ s ∈ validModeCodes, s.data ≠ [] ∧ ',' ∉ s.data := by
  decide

/-- Helper: sorting a nonempty list yields a nonempty list. -/
lemma sortedModes_ne_nil (a : String) (t : List String) : sortedModes (a :: t) ≠ [] := by
  intro h
  have hp := List.perm_insertionSort (fun x y : String => x ≤ y) (a :: t)
  rw [show List.insertionSort _ (a :: t) = sortedModes (a :: t) from rfl, h] at hp
  exact List.cons_ne_nil a t (List.Perm.eq_nil hp.symm)

/-- Helper: sorting is invariant under permutation (sortedness plus
antisymmetry of the lexicographic string order). -/
lemma sortedModes_eq_of_perm {m1 m2 : List String} (h : m1.Perm m2) :
    sortedModes m1 = sortedModes m2 := by
  apply List.eq_of_perm_of_sorted
    (((List.perm_insertionSort _ m1).trans h).trans (List.perm_insertionSort _ m2).symm)
    (List.sorted_insertionSort _ m1) (List.sorted_insertionSort _ m2)

/-- Helper: every element of the sorted mode list is an element of the
original list. -/
lemma sortedModes_subset {m : List String} {w : String} (hw : w ∈ sortedModes m) :
    w ∈ m :=
  (List.perm_insertionSort _ m).mem_iff.mp hw

/-- C8: two mode lists that are permutations of each other always produce the
same departure-board cache key, and two mode lists of valid codes produce the
same key only when they are permutations — hence different (finite) sets of
valid mode codes, the empty set included, always produce different keys and
are never served from each other's cache entry. -/
theorem departures_cache_key_modes :
    ∀ (eva : Int) (hafas_id datum zeit : String) (m1 m2 : List String),
      (m1.Perm m2 →
        departures_cache_key eva hafas_id datum zeit m1
          = departures_cache_key eva hafas_id datum zeit m2) ∧
      ((∀ s ∈ m1, s ∈ validModeCodes) → (∀ s ∈ m2, s ∈ validModeCodes) →
        departures_cache_key eva hafas_id datum zeit m1
          = departures_cache_key eva hafas_id datum zeit m2 →
        m1.Perm m2) := by
  intro eva hafas_id datum zeit m1 m2
  constructor
  · intro hperm
    have hm : modes_key m1 = modes_key m2 := by
      unfold modes_key
      cases m1 with
      | nil =>
        have h2 : m2 = [] := (List.Perm.nil_eq hperm).symm
        subst h2
        rfl
      | cons a t =>
        have hne2 : m2 ≠ [] := by
          intro h
          subst h
          exact List.cons_ne_nil a t (List.Perm.eq_nil hperm)
        rw [if_neg (List.cons_ne_nil a t), if_neg hne2, sortedModes_eq_of_perm hperm]
    unfold departures_cache_key
    rw [hm]
  · intro hv1 hv2 hkey
    have hm : modes_key m1 = modes_key m2 := by
      have h := congrArg String.data hkey
      unfold departures_cache_key at h
      simp only [String.data_append, List.append_assoc] at h
      repeat rw [List.append_right_inj] at h
      exact string_data_injective h
    have sortedWords : ∀ (m : List String), (∀ s ∈ m, s ∈ validModeCodes) →
        ∀ w ∈ sortedModes m, w.data ≠ [] ∧ ',' ∉ w.data := by
      intro m hv w hw
      exact validModeCodes_words w (hv w (sortedModes_subset hw))
    unfold modes_key at hm
    rcases m1 with _ | ⟨a1, t1⟩ <;> rcases m2 with _ | ⟨a2, t2⟩
    · exact List.Perm.refl _
    · rw [if_pos rfl, if_neg (List.cons_ne_nil a2 t2)] at hm
      rcases hs : sortedModes (a2 :: t2) with _ | ⟨b, bt⟩
      · exact absurd hs (sortedModes_ne_nil a2 t2)
      · rw [hs] at hm
        exact absurd hm.symm
          (joinComma_ne_empty b bt
            (sortedWords (a2 :: t2) hv2 b (hs ▸ List.mem_cons_self b bt)).1)
    · rw [if_neg (List.cons_ne_nil a1 t1), if_pos rfl] at hm
      rcases hs : sortedModes (a1 :: t1) with _ | ⟨b, bt⟩
      · exact absurd hs (sortedModes_ne_nil a1 t1)
      · rw [hs] at hm
        exact absurd hm
          (joinComma_ne_empty b bt
            (sortedWords (a1 :: t1) hv1 b (hs ▸ List.mem_cons_self b bt)).1)
    · rw [if_neg (List.cons_ne_nil a1 t1), if_neg (List.cons_ne_nil a2 t2)] at hm
      have hsorted : sortedModes (a1 :: t1) = sortedModes (a2 :: t2) :=
        joinComma_inj (fun w hw => (sortedWords _ hv1 w hw).2)
          (fun w hw => (sortedWords _ hv2 w hw).2)
          (sortedModes_ne_nil a1 t1) (sortedModes_ne_nil a2 t2) hm
      have hp1 : (sortedModes (a1 :: t1)).Perm (a1 :: t1) := List.perm_insertionSort _ _
      have hp2 : (sortedModes (a2 :: t2)).Perm (a2 :: t2) := List.perm_insertionSort _ _
      rw [hsorted] at hp1
      exact hp1.symm.trans hp2

/-- Witness for C8: the keys for `["REGIONAL", "ICE"]` and `["ICE",
"REGIONAL"]` coincide, those lists being permutations; and applying the
discriminating direction to `["ICE"]` versus itself recovers the permutation. -/
theorem departures_cache_key_modes_witness :
    departures_cache_key 8000105 "A=1@" "2026-02-24" "14:00:00" ["REGIONAL", "ICE"]
      = departures_cache_key 8000105 "A=1@" "2026-02-24" "14:00:00" ["ICE", "REGIONAL"] ∧
    (["ICE"] : List String).Perm ["ICE"] := by
  constructor
  · exact (departures_cache_key_modes 8000105 "A=1@" "2026-02-24" "14:00:00"
      ["REGIONAL", "ICE"] ["ICE", "REGIONAL"]).1 (List.Perm.swap _ _ _)
  · exact (departures_cache_key_modes 8000105 "A=1@" "2026-02-24" "14:00:00"
      ["ICE"] ["ICE"]).2 (by decide) (by decide) rfl

/-! ### Claim C4: timestamp parsing -/

/-- Helper: a decimal digit is neither a dash nor a plus sign. -/
lemma digit_ne_signs {c : Char} (h : c.isDigit = true) : c ≠ '-' ∧ c ≠ '+' := by
  constructor <;> rintro rfl <;> exact absurd h (by decide)

/-- Helper: inversion of `parse2` — success exposes two digit characters. -/
lemma parse2_eq_some {cs : List Char} {n : Nat} {rest : List Char}
    (h : parse2 cs = some (n, rest)) :
    ∃ a b, cs = a :: b :: rest ∧ a.isDigit = true ∧ b.isDigit = true := by
  rcases cs with _ | ⟨a, _ | ⟨b, r⟩⟩
  · exact absurd h (by simp [parse2])
  · exact absurd h (by simp [parse2])
  · by_cases hd : (a.isDigit && b.isDigit) = true
    · rw [parse2, if_pos hd] at h
      obtain ⟨hb1, hb2⟩ := Bool.and_eq_true_iff.mp hd
      injection h with h'
      have hr : r = rest := congrArg Prod.snd h'
      subst hr
      exact ⟨a, b, rfl, hb1, hb2⟩
    · rw [parse2, if_neg hd] at h
      cases h

/-- Helper: inversion of `parse4` — success exposes four digit characters. -/
lemma parse4_eq_some {cs : List Char} {n : Nat} {rest : List Char}
    (h : parse4 cs = some (n, rest)) :
    ∃ a b c d, cs = a :: b :: c :: d :: rest ∧
      a.isDigit = true ∧ b.isDigit = true ∧ c.isDigit = true ∧ d.isDigit = true := by
  simp only [parse4, Option.bind_eq_bind, Option.bind_eq_some] at h
  obtain ⟨⟨hi, cs1⟩, h1, h⟩ := h
  obtain ⟨⟨lo, cs2⟩, h2, h⟩ := h
  injection h with h'
  have hr : cs2 = rest := congrArg Prod.snd h'
  subst hr
  obtain ⟨a, b, hab, ha, hb⟩ := parse2_eq_some h1
  obtain ⟨c, d, hcd, hc, hd⟩ := parse2_eq_some h2
  subst hcd
  exact ⟨a, b, c, d, hab, ha, hb, hc, hd⟩

/-- Helper: inversion of `expectChar`. -/
lemma expectChar_eq_some {c : Char} {cs rest : List Char}
    (h : expectChar c cs = some rest) : cs = c :: rest := by
  rcases cs with _ | ⟨a, t⟩
  · exact absurd h (by simp [expectChar])
  · by_cases ha : a = c
    · rw [expectChar, if_pos ha] at h
      injection h with h'
      rw [ha, h']
    · rw [expectChar, if_neg ha] at h
      cases h

/-- Helper: a successful `fromisoformat` fully determines the shape of the
input — nineteen date-time characters (fourteen digits around the literal
separators `-`, `-`, `T`, `:`, `:`) followed by a tail that is empty for a
naive result and starts with `+` or `-` for an offset-aware result. -/
lemma fromisoformat_shape {t : String} {dt : PyDT}
    (h : fromisoformat t = some dt) :
    ∃ (y1 y2 y3 y4 m1 m2 d1 d2 hh1 hh2 mi1 mi2 s1 s2 : Char) (tail : List Char),
      t.data = y1 :: y2 :: y3 :: y4 :: '-' :: m1 :: m2 :: '-' :: d1 :: d2 :: 'T' ::
        hh1 :: hh2 :: ':' :: mi1 :: mi2 :: ':' :: s1 :: s2 :: tail ∧
      (∀ c ∈ [y1, y2, y3, y4, m1, m2, d1, d2, hh1, hh2, mi1, mi2, s1, s2],
        c.isDigit = true) ∧
      (∀ w, dt = .naive w → tail = []) ∧
      (∀ w o, dt = .aware w o →
        (∃ r, tail = '+' :: r) ∨ (∃ r, tail = '-' :: r)) := by
  simp only [fromisoformat, Option.bind_eq_bind, Option.bind_eq_some] at h
  obtain ⟨⟨y, cs1⟩, hy, h⟩ := h
  obtain ⟨cs2, he1, h⟩ := h
  obtain ⟨⟨mo, cs3⟩, hmo, h⟩ := h
  obtain ⟨cs4, he2, h⟩ := h
  obtain ⟨⟨d, cs5⟩, hd, h⟩ := h
  obtain ⟨cs6, he3, h⟩ := h
  obtain ⟨⟨hh, cs7⟩, hhh, h⟩ := h
  obtain ⟨cs8, he4, h⟩ := h
  obtain ⟨⟨mi, cs9⟩, hmi, h⟩ := h
  obtain ⟨cs10, he5, h⟩ := h
  obtain ⟨⟨ss, cs11⟩, hss, h⟩ := h
  dsimp only at he1 he2 he3 he4 he5 h
  obtain ⟨y1, y2, y3, y4, hcs0, hy1, hy2, hy3, hy4⟩ := parse4_eq_some hy
  have hcs1 := expectChar_eq_some he1
  obtain ⟨m1, m2, hcs2, hm1, hm2⟩ := parse2_eq_some hmo
  have hcs3 := expectChar_eq_some he2
  obtain ⟨d1, d2, hcs4, hd1, hd2⟩ := parse2_eq_some hd
  have hcs5 := expectChar_eq_some he3
  obtain ⟨hh1, hh2, hcs6, hhh1, hhh2⟩ := parse2_eq_some hhh
  have hcs7 := expectChar_eq_some he4
  obtain ⟨mi1, mi2, hcs8, hmi1, hmi2⟩ := parse2_eq_some hmi
  have hcs9 := expectChar_eq_some he5
  obtain ⟨s1, s2, hcs10, hs1, hs2⟩ := parse2_eq_some hss
  refine ⟨y1, y2, y3, y4, m1, m2, d1, d2, hh1, hh2, mi1, mi2, s1, s2, cs11, ?_, ?_, ?_, ?_⟩
  · rw [hcs0, hcs1, hcs2, hcs3, hcs4, hcs5, hcs6, hcs7, hcs8, hcs9, hcs10]
  · intro c hc
    simp only [List.mem_cons, List.not_mem_nil, or_false] at hc
    rcases hc with rfl | rfl | rfl | rfl | rfl | rfl | rfl | rfl | rfl | rfl | rfl | rfl | rfl | rfl
    exacts [hy1, hy2, hy3, hy4, hm1, hm2, hd1, hd2, hhh1, hhh2, hmi1, hmi2, hs1, hs2]
  · intro w hw
    subst hw
    by_cases hv : validWall ⟨y, mo, d, hh, mi, ss⟩
    · rw [if_neg (by simp [hv])] at h
      rcases cs11 with _ | ⟨c, r⟩
      · rfl
      · split at h
        · rename_i heq
          exact heq
        · simp only [Option.map_eq_some'] at h
          obtain ⟨o, _, ho⟩ := h
          cases ho
        · simp only [Option.map_eq_some'] at h
          obtain ⟨o, _, ho⟩ := h
          cases ho
        · cases h
    · rw [if_pos (by simp [hv])] at h
      cases h
  · intro w o hw
    subst hw
    by_cases hv : validWall ⟨y, mo, d, hh, mi, ss⟩
    · rw [if_neg (by simp [hv])] at h
      rcases cs11 with _ | ⟨c, r⟩
      · exact absurd h (by simp)
      · split at h
        · exact absurd h (by simp)
        · rename_i heq
          exact Or.inl ⟨r, by injection heq with h1 h2; rw [h1]⟩
        · rename_i heq
          exact Or.inr ⟨r, by injection heq with h1 h2; rw [h1]⟩
        · cases h
    · rw [if_pos (by simp [hv])] at h
      cases h

/-- Helper: a string accepted by `fromisoformat` as a naive datetime is not
flagged by the offset-detection test: it contains no `+` and exactly two
dashes. -/
lemma offsetDetect_eq_false_of_naive {t : String} {w : WallClock}
    (h : fromisoformat t = some (.naive w)) : offsetDetect t = false := by
  obtain ⟨y1, y2, y3, y4, m1, m2, d1, d2, hh1, hh2, mi1, mi2, s1, s2, tail,
    hdata, hdig, hnaive, -⟩ := fromisoformat_shape h
  have htail := hnaive w rfl
  subst htail
  simp only [List.forall_mem_cons] at hdig
  obtain ⟨q1, q2, q3, q4, q5, q6, q7, q8, q9, q10, q11, q12, q13, q14, -⟩ := hdig
  have hdash : t.data.count '-' = 2 := by
    rw [hdata]
    rw [List.count_cons_of_ne (Ne.symm (digit_ne_signs q1).1),
      List.count_cons_of_ne (Ne.symm (digit_ne_signs q2).1),
      List.count_cons_of_ne (Ne.symm (digit_ne_signs q3).1),
      List.count_cons_of_ne (Ne.symm (digit_ne_signs q4).1),
      List.count_cons_self,
      List.count_cons_of_ne (Ne.symm (digit_ne_signs q5).1),
      List.count_cons_of_ne (Ne.symm (digit_ne_signs q6).1),
      List.count_cons_self,
      List.count_cons_of_ne (Ne.symm (digit_ne_signs q7).1),
      List.count_cons_of_ne (Ne.symm (digit_ne_signs q8).1),
      List.count_cons_of_ne ((by decide : ('-' : Char) ≠ 'T')),
      List.count_cons_of_ne (Ne.symm (digit_ne_signs q9).1),
      List.count_cons_of_ne (Ne.symm (digit_ne_signs q10).1),
      List.count_cons_of_ne ((by decide : ('-' : Char) ≠ ':')),
      List.count_cons_of_ne (Ne.symm (digit_ne_signs q11).1),
      List.count_cons_of_ne (Ne.symm (digit_ne_signs q12).1),
      List.count_cons_of_ne ((by decide : ('-' : Char) ≠ ':')),
      List.count_cons_of_ne (Ne.symm (digit_ne_signs q13).1),
      List.count_cons_of_ne (Ne.symm (digit_ne_signs q14).1),
      List.count_nil]
  have hplus : t.data.count '+' = 0 := by
    rw [hdata]
    rw [List.count_cons_of_ne (Ne.symm (digit_ne_signs q1).2),
      List.count_cons_of_ne (Ne.symm (digit_ne_signs q2).2),
      List.count_cons_of_ne (Ne.symm (digit_ne_signs q3).2),
      List.count_cons_of_ne (Ne.symm (digit_ne_signs q4).2),
      List.count_cons_of_ne ((by decide : ('+' : Char) ≠ '-')),
      List.count_cons_of_ne (Ne.symm (digit_ne_signs q5).2),
      List.count_cons_of_ne (Ne.symm (digit_ne_signs q6).2),
      List.count_cons_of_ne ((by decide : ('+' : Char) ≠ '-')),
      List.count_cons_of_ne (Ne.symm (digit_ne_signs q7).2),
      List.count_cons_of_ne (Ne.symm (digit_ne_signs q8).2),
      List.count_cons_of_ne ((by decide : ('+' : Char) ≠ 'T')),
      List.count_cons_of_ne (Ne.symm (digit_ne_signs q9).2),
      List.count_cons_of_ne (Ne.symm (digit_ne_signs q10).2),
      List.count_cons_of_ne ((by decide : ('+' : Char) ≠ ':')),
      List.count_cons_of_ne (Ne.symm (digit_ne_signs q11).2),
      List.count_cons_of_ne (Ne.symm (digit_ne_signs q12).2),
      List.count_cons_of_ne ((by decide : ('+' : Char) ≠ ':')),
      List.count_cons_of_ne (Ne.symm (digit_ne_signs q13).2),
      List.count_cons_of_ne (Ne.symm (digit_ne_signs q14).2),
      List.count_nil]
  have hmem : '+' ∉ t.data := List.count_eq_zero.mp hplus
  simp only [offsetDetect, decide_eq_false hmem, hdash, Bool.false_or]
  decide

/-- Helper: a string accepted by `fromisoformat` as an offset-aware datetime
is always flagged by the offset-detection test — a `+` offset contributes a
plus character and a `-` offset a third dash. -/
lemma offsetDetect_eq_true_of_aware {t : String} {w : WallClock} {o : Int}
    (h : fromisoformat t = some (.aware w o)) : offsetDetect t = true := by
  obtain ⟨y1, y2, y3, y4, m1, m2, d1, d2, hh1, hh2, mi1, mi2, s1, s2, tail,
    hdata, hdig, -, haware⟩ := fromisoformat_shape h
  simp only [List.forall_mem_cons] at hdig
  obtain ⟨q1, q2, q3, q4, q5, q6, q7, q8, q9, q10, q11, q12, q13, q14, -⟩ := hdig
  rcases haware w o rfl with ⟨r, hr⟩ | ⟨r, hr⟩
  · subst hr
    have hmem : '+' ∈ t.data := by
      rw [hdata]
      simp [List.mem_cons]
    simp [offsetDetect, hmem]
  · subst hr
    have hcnt : 2 < t.data.count '-' := by
      rw [hdata]
      rw [List.count_cons_of_ne (Ne.symm (digit_ne_signs q1).1),
        List.count_cons_of_ne (Ne.symm (digit_ne_signs q2).1),
        List.count_cons_of_ne (Ne.symm (digit_ne_signs q3).1),
        List.count_cons_of_ne (Ne.symm (digit_ne_signs q4).1),
        List.count_cons_self,
        List.count_cons_of_ne (Ne.symm (digit_ne_signs q5).1),
        List.count_cons_of_ne (Ne.symm (digit_ne_signs q6).1),
        List.count_cons_self,
        List.count_cons_of_ne (Ne.symm (digit_ne_signs q7).1),
        List.count_cons_of_ne (Ne.symm (digit_ne_signs q8).1),
        List.count_cons_of_ne ((by decide : ('-' : Char) ≠ 'T')),
        List.count_cons_of_ne (Ne.symm (digit_ne_signs q9).1),
        List.count_cons_of_ne (Ne.symm (digit_ne_signs q10).1),
        List.count_cons_of_ne ((by decide : ('-' : Char) ≠ ':')),
        List.count_cons_of_ne (Ne.symm (digit_ne_signs q11).1),
        List.count_cons_of_ne (Ne.symm (digit_ne_signs q12).1),
        List.count_cons_of_ne ((by decide : ('-' : Char) ≠ ':')),
        List.count_cons_of_ne (Ne.symm (digit_ne_signs q13).1),
        List.count_cons_of_ne (Ne.symm (digit_ne_signs q14).1),
        List.count_cons_self]
      omega
    simp [offsetDetect, hcnt]

/-- C4: the timestamp parser fails exactly when the (stripped) input is empty
or not an accepted ISO-8601 date-time; an accepted naive string becomes that
wall-clock time tagged with the Berlin zone; an accepted offset-qualified
string becomes the equivalent instant in the Berlin zone (offset-qualified
strings always trip the `+`/third-dash detection test); and an input that
trips the detection test but fails offset parsing falls through to the naive
path, failing there since it is still unparsable. -/
theorem parse_bahn_datetime_spec :
    ∀ (sysTz : WallClock → BerlinDT) (s : String),
      (parse_bahn_datetime sysTz s = .error () ↔
        (pyStrip s = "" ∨ fromisoformat (pyStrip s) = none)) ∧
      (∀ w, fromisoformat (pyStrip s) = some (.naive w) →
        parse_bahn_datetime sysTz s = .ok (.ofWall w)) ∧
      (∀ w o, fromisoformat (pyStrip s) = some (.aware w o) →
        offsetDetect (pyStrip s) = true ∧
        parse_bahn_datetime sysTz s = .ok (.ofInstant (wallEpochSeconds w - 60 * o))) ∧
      (offsetDetect (pyStrip s) = true → fromisoformat (pyStrip s) = none →
        parse_bahn_datetime sysTz s = naive_branch (pyStrip s) ∧
        parse_bahn_datetime sysTz s = .error ()) := by
  intro sysTz s
  have hnilparse : fromisoformat "" = none := rfl
  refine ⟨?_, ?_, ?_, ?_⟩
  · constructor
    · intro h
      by_cases ht : pyStrip s = ""
      · exact Or.inl ht
      · rcases hf : fromisoformat (pyStrip s) with _ | dt
        · exact Or.inr rfl
        · exfalso
          by_cases hdet : offsetDetect (pyStrip s) = true
          · simp [parse_bahn_datetime, ht, hdet, hf] at h
          · simp [parse_bahn_datetime, ht, hdet, naive_branch, hf] at h
    · intro h
      rcases h with ht | hf
      · simp [parse_bahn_datetime, ht]
      · by_cases ht : pyStrip s = ""
        · simp [parse_bahn_datetime, ht]
        · by_cases hdet : offsetDetect (pyStrip s) = true
          · simp [parse_bahn_datetime, ht, hdet, naive_branch, hf]
          · simp [parse_bahn_datetime, ht, hdet, naive_branch, hf]
  · intro w hw
    have hdet := offsetDetect_eq_false_of_naive hw
    have ht : pyStrip s ≠ "" := by
      intro h
      rw [h, hnilparse] at hw
      cases hw
    simp [parse_bahn_datetime, ht, hdet, naive_branch, hw, replace_tz_berlin]
  · intro w o hw
    have hdet := offsetDetect_eq_true_of_aware hw
    have ht : pyStrip s ≠ "" := by
      intro h
      rw [h, hnilparse] at hw
      cases hw
    exact ⟨hdet, by simp [parse_bahn_datetime, ht, hdet, hw, astimezone_berlin]⟩
  · intro hdet hf
    by_cases ht : pyStrip s = ""
    · constructor
      · rw [ht]
        simp [parse_bahn_datetime, ht, naive_branch, hnilparse]
      · simp [parse_bahn_datetime, ht]
    · constructor
      · simp [parse_bahn_datetime, ht, hdet, hf]
      · simp [parse_bahn_datetime, ht, hdet, hf, naive_branch]

/-- Witness for C4 on concrete strings: a naive timestamp is re-tagged as
Berlin wall-clock time, a `+01:00` timestamp is converted to the equivalent
instant, garbage and whitespace-only inputs fail, and an input that trips the
offset detection but fails parsing (month 13) fails overall. -/
theorem parse_bahn_datetime_spec_witness :
    parse_bahn_datetime (fun _ => .ofInstant 0) "2026-02-24T14:30:00"
      = .ok (.ofWall ⟨2026, 2, 24, 14, 30, 0⟩) ∧
    parse_bahn_datetime (fun _ => .ofInstant 0) "2026-02-24T14:30:00+01:00"
      = .ok (.ofInstant (wallEpochSeconds ⟨2026, 2, 24, 14, 30, 0⟩ - 60 * 60)) ∧
    parse_bahn_datetime (fun _ => .ofInstant 0) "not-a-date" = .error () ∧
    parse_bahn_datetime (fun _ => .ofInstant 0) "   " = .error () ∧
    parse_bahn_datetime (fun _ => .ofInstant 0) "2026-13-05T10:00:00+01:00" = .error () := by
  refine ⟨?_, ?_, ?_, ?_, ?_⟩
  · exact (parse_bahn_datetime_spec (fun _ => .ofInstant 0) "2026-02-24T14:30:00").2.1
      ⟨2026, 2, 24, 14, 30, 0⟩ (by decide)
  · exact ((parse_bahn_datetime_spec (fun _ => .ofInstant 0) "2026-02-24T14:30:00+01:00").2.2.1
      ⟨2026, 2, 24, 14, 30, 0⟩ 60 (by decide)).2
  · exact (parse_bahn_datetime_spec (fun _ => .ofInstant 0) "not-a-date").1.mpr
      (Or.inr (by decide))
  · exact (parse_bahn_datetime_spec (fun _ => .ofInstant 0) "   ").1.mpr
      (Or.inl (by decide))
  · exact ((parse_bahn_datetime_spec (fun _ => .ofInstant 0) "2026-13-05T10:00:00+01:00").2.2.2
      (by decide) (by decide)).2

/-! ### Claim C9: real-time parse failures degrade, scheduled ones are fatal -/

/-- C9: when the scheduled field parses, an unparsable (or empty) real-time
field leaves the mapping successful and behaving exactly as if no real-time
data were present — `rt_departure` is `None`, the delay is 0 and the
effective departure is the scheduled one; when the scheduled field does not
parse, mapping that entry fails and with it the whole board mapping. -/
theorem map_departure_realtime_spec :
    ∀ (sysTz : WallClock → BerlinDT) (berlinOff : WallClock → Int) (raw : RawEntry),
      (∀ sched, parse_bahn_datetime sysTz (raw.zeit.getD "") = .ok sched →
        (parse_bahn_datetime sysTz (raw.ezZeit.getD "")).toOption = none →
        map_departure sysTz berlinOff raw
          = map_departure sysTz berlinOff { raw with ezZeit := none } ∧
        (map_departure sysTz berlinOff raw).isOk = true ∧
        (∀ d, map_departure sysTz berlinOff raw = .ok d →
          d.rt_departure = none ∧ d.delay_minutes = 0 ∧
          d.effective_departure = sched)) ∧
      (parse_bahn_datetime sysTz (raw.zeit.getD "") = .error () →
        map_departure sysTz berlinOff raw = .error () ∧
        ∀ pre post, map_board sysTz berlinOff (pre ++ raw :: post) = .error ()) := by
  intro sysTz berlinOff raw
  constructor
  · intro sched hsched hez
    have hrt : (if (raw.ezZeit.getD "") = "" then none
        else (parse_bahn_datetime sysTz (raw.ezZeit.getD "")).toOption)
        = (none : Option BerlinDT) := by
      by_cases hez0 : raw.ezZeit.getD "" = ""
      · rw [if_pos hez0]
      · rw [if_neg hez0, hez]
    refine ⟨?_, ?_, ?_⟩
    · simp only [map_departure, hsched, hrt]
      rfl
    · simp only [map_departure, hsched, hrt, Except.isOk, Except.toBool]
    · intro d hd
      simp only [map_departure, hsched, hrt] at hd
      injection hd with hd'
      subst hd'
      exact ⟨rfl, rfl, rfl⟩
  · intro herr
    have hmap : map_departure sysTz berlinOff raw = .error () := by
      simp only [map_departure, herr]
    refine ⟨hmap, ?_⟩
    intro pre post
    induction pre with
    | nil =>
      simp only [List.nil_append, map_board, hmap]
      rfl
    | cons e t ih =>
      have hstep : map_board sysTz berlinOff ((e :: t) ++ raw :: post)
          = (map_departure sysTz berlinOff e).bind (fun d2 =>
              (map_board sysTz berlinOff (t ++ raw :: post)).bind (fun ds =>
                Except.ok (d2 :: ds))) := rfl
      rcases he : map_departure sysTz berlinOff e with u | d
      · cases u
        rw [hstep, he]
        rfl
      · rw [hstep]
        simp only [he, ih]
        rfl

/-- A concrete raw board entry used by the C9 witness. -/
def sampleRawEntry : RawEntry :=
  { journeyId := some "j1"
    verkehrmittel := some ⟨some "ICE 619", none, some "ICE"⟩
    terminus := some "München Hbf"
    ueber := some ["Frankfurt(Main)Hbf", "Mannheim Hbf"]
    gleis := some "7"
    ezGleis := none
    zeit := some "2026-02-24T14:30:00"
    ezZeit := some "garbage"
    meldungen := none }

/-- Witness for C9: the sample entry with an unparsable `ezZeit` maps
successfully and identically to the same entry without real-time data, while
replacing its scheduled field by garbage makes the entry — and a board
containing it — fail. -/
theorem map_departure_realtime_spec_witness :
    (map_departure (fun _ => .ofInstant 0) (fun _ => 60) sampleRawEntry).isOk = true ∧
    map_departure (fun _ => .ofInstant 0) (fun _ => 60) sampleRawEntry
      = map_departure (fun _ => .ofInstant 0) (fun _ => 60)
          { sampleRawEntry with ezZeit := none } ∧
    map_departure (fun _ => .ofInstant 0) (fun _ => 60)
      { sampleRawEntry with zeit := some "bad" } = .error () ∧
    map_board (fun _ => .ofInstant 0) (fun _ => 60)
      [{ sampleRawEntry with zeit := some "bad" }] = .error () := by
  have h1 := (map_departure_realtime_spec (fun _ => .ofInstant 0) (fun _ => 60)
    sampleRawEntry).1 (.ofWall ⟨2026, 2, 24, 14, 30, 0⟩) rfl rfl
  have h2 := (map_departure_realtime_spec (fun _ => .ofInstant 0) (fun _ => 60)
    { sampleRawEntry with zeit := some "bad" }).2 rfl
  exact ⟨h1.2.1, h1.1, h2.1, h2.2 [] []⟩

end DbMcp
